import Mathlib

/-!
Verification of the job persistence and lifecycle-coordination layer of the
TelegramBot repository, as a shallow embedding in Lean 4.

The embedding models:
* `JobStorage` (src/modules/storage/job_storage.py) — a file-per-record store,
  modelled as an association list from `job_id` to the stored record.  A Python
  dict whose keys may be absent is modelled with `Option` fields.
* `BasePlugin` counters and error capture (src/modules/base/base_plugin.py).
* the safe wrappers and active-flag gate of `BaseSender` / `BaseHandler` /
  `BaseHybrid` (src/modules/outgoing/base_sender.py, incoming/base_handler.py,
  hybrid/base_hybrid.py).
* `SchedulerManager.register_plugin_job` / `remove_job`
  (src/core/scheduler/scheduler_manager.py), with APScheduler modelled as a
  list of live jobs: `add_job` fails on a duplicate id or an unrecognized
  trigger alias, `remove_job` raises (returns the not-found signal) for an
  unknown id.
* the admin disable command (src/modules/incoming/plugin_manager/plugin_manager.py).
* the restore-at-startup loop of src/main.py with its static plugin loader.
-/

namespace TelegramBot

/-- The value stored under the `schedule` key of a job dict: either not a JSON
object at all, or an object given as a key/value association list (trigger
parameters are kept as opaque strings). -/
inductive SchedVal where
  | notDict : SchedVal
  | dict (entries : List (String × String)) : SchedVal
deriving DecidableEq, Repr

/-- The `metadata` sub-dict of a stored job record.  The `active` key may be
absent (Python reads it with `.get('active', True)`). -/
structure MetaData where
  description : String
  active : Option Bool
  created_at : String
  last_execution : Option String
  execution_count : Nat
  error_count : Nat
deriving DecidableEq, Repr

/-- A job dict as handled by `JobStorage`.  Every top-level key may be absent,
which `Option` captures; `_validate_job_data` checks presence of the required
ones. -/
structure JobData where
  job_id : Option String
  plugin_type : Option String
  plugin_name : Option String
  plugin_class : Option String
  schedule : Option SchedVal
  metadata : Option MetaData
  saved_at : Option String
  version : Option String
deriving DecidableEq, Repr

/-- The store: one record per file, keyed by `job_id` (the file name). -/
abbrev Store := List (String × JobData)

/-- `valid_types` from `JobStorage._validate_job_data`. -/
def validTypes : List String := ["outgoing", "incoming", "hybrid"]

/-- `isinstance(schedule, dict) and 'trigger' in schedule`. -/
def schedHasTrigger : SchedVal → Bool
  | .notDict => false
  | .dict es => (es.lookup "trigger").isSome

/-- `JobStorage._validate_job_data`: all five required fields present,
`plugin_type` among the three recognized kinds, `schedule` a dict holding a
`trigger` key. -/
def validate_job_data (jd : JobData) : Bool :=
  match jd.job_id, jd.plugin_type, jd.plugin_name, jd.plugin_class, jd.schedule with
  | some _, some pt, some _, some _, some sv =>
      validTypes.contains pt && schedHasTrigger sv
  | _, _, _, _, _ => false

/-- Removing the file `id.json` from the storage directory. -/
def storeErase (s : Store) (id : String) : Store :=
  s.filter (fun p => p.1 != id)

/-- `JobStorage.save_job`: validate, stamp `saved_at` and `version`, then write
the file named by `job_id` (overwriting any previous one).  `now` is the
`datetime.now().isoformat()` timestamp. -/
def save_job (s : Store) (jd : JobData) (now : String) : Store × Bool :=
  if validate_job_data jd then
    let jd' := { jd with saved_at := some now, version := some "1.0" }
    let id := jd.job_id.getD ""
    ((id, jd') :: storeErase s id, true)
  else
    (s, false)

/-- `JobStorage.load_job`: return the stored record after re-validating it; a
missing or invalid record reads as `none`. -/
def load_job (s : Store) (id : String) : Option JobData :=
  match List.lookup id s with
  | none => none
  | some jd => if validate_job_data jd then some jd else none

/-- `JobStorage.load_all_jobs`: load every file in the directory, skipping the
ones that fail to load or validate. -/
def load_all_jobs (s : Store) : List JobData :=
  s.filterMap (fun p => load_job s p.1)

/-- `JobStorage.delete_job`: remove the record's file if it exists; report
`false` (not an error) when it does not. -/
def delete_job (s : Store) (id : String) : Store × Bool :=
  if (List.lookup id s).isSome then (storeErase s id, true) else (s, false)

/-- `JobStorage.job_exists`. -/
def job_exists (s : Store) (id : String) : Bool :=
  (List.lookup id s).isSome

/-- `JobStorage.create_job_data`: the standardized record shape built for a
fresh registration (no `saved_at`/`version` yet; those are added by
`save_job`). -/
def create_job_data (job_id plugin_type plugin_name plugin_class : String)
    (schedule : SchedVal) (description : String) (active : Bool)
    (now : String) : JobData :=
  { job_id := some job_id
    plugin_type := some plugin_type
    plugin_name := some plugin_name
    plugin_class := some plugin_class
    schedule := some schedule
    metadata := some
      { description := description
        active := some active
        created_at := now
        last_execution := none
        execution_count := 0
        error_count := 0 }
    saved_at := none
    version := none }

/-! ### Association-list lemmas shared by the proofs -/

theorem lookup_eraseKey {β : Type} (s : List (String × β)) (id : String) :
    List.lookup id (s.filter (fun p => p.1 != id)) = none := by
  induction s with
  | nil => rfl
  | cons p t ih =>
    by_cases h : p.1 = id
    · simpa [List.filter, bne, h] using ih
    · have hb : (p.1 != id) = true := by simp [bne, h]
      have hb' : (id == p.1) = false := by
        simp only [beq_eq_false_iff_ne, ne_eq]
        exact fun he => h he.symm
      simpa [List.filter, hb, List.lookup, hb'] using ih

theorem lookup_eraseKey_ne {β : Type} (s : List (String × β)) (id id' : String)
    (h : id' ≠ id) :
    List.lookup id' (s.filter (fun p => p.1 != id)) = List.lookup id' s := by
  induction s with
  | nil => rfl
  | cons p t ih =>
    by_cases hp : p.1 = id
    · have hb : (p.1 != id) = false := by simp [bne, hp]
      have hb' : (id' == p.1) = false := by
        simp only [beq_eq_false_iff_ne, ne_eq]
        intro he; exact h (he.trans hp)
      simpa [List.filter, hb, List.lookup, hb'] using ih
    · have hb : (p.1 != id) = true := by simp [bne, hp]
      by_cases he : id' = p.1
      · simp [List.filter, hb, List.lookup, he]
      · have hb' : (id' == p.1) = false := by
          simp only [beq_eq_false_iff_ne, ne_eq]; exact he
        simpa [List.filter, hb, List.lookup, hb'] using ih

theorem filterKey_eraseKey {β : Type} (s : List (String × β)) (id : String) :
    (s.filter (fun p => p.1 != id)).filter (fun p => p.1 == id) = [] := by
  induction s with
  | nil => rfl
  | cons p t ih =>
    by_cases h : p.1 = id
    · have hb : (p.1 != id) = false := by simp [bne, h]
      simp only [List.filter_cons, hb, if_false, Bool.false_eq_true]
      exact ih
    · have hb : (p.1 != id) = true := by simp [bne, h]
      have hb' : (p.1 == id) = false := by
        simp only [beq_eq_false_iff_ne, ne_eq]; exact h
      simp only [List.filter_cons, hb, hb', if_true, if_false, Bool.false_eq_true]
      exact ih

theorem lookup_storeErase (s : Store) (id : String) :
    List.lookup id (storeErase s id) = none :=
  lookup_eraseKey s id

theorem filter_key_storeErase (s : Store) (id : String) :
    (storeErase s id).filter (fun p => p.1 == id) = [] :=
  filterKey_eraseKey s id

theorem not_mem_filter_ne_self (r : List String) (id : String) :
    id ∉ r.filter (fun x => x != id) := by
  intro hmem
  have := List.of_mem_filter hmem
  simp [bne] at this

/-- Stamping `saved_at` and `version` does not affect validation. -/
theorem validate_stamp (jd : JobData) (now : String) :
    validate_job_data { jd with saved_at := some now, version := some "1.0" } =
      validate_job_data jd := by
  cases jd with
  | mk ji pt pn pc sc md sa vv => rfl

/-! ### Plugin runtime state (`BasePlugin`) and the safe wrappers -/

/-- The `_last_error` dict set by `BasePlugin.handle_error` (the traceback
text is abstracted away). -/
structure ErrInfo where
  error : String
  context : String
  timestamp : String
deriving DecidableEq, Repr

/-- The slice of `BasePlugin`'s in-memory `self.metadata` dict touched by
execution: `last_execution`, `execution_count`, `error_count`. -/
structure PluginMeta where
  last_execution : Option String
  execution_count : Nat
  error_count : Nat
deriving DecidableEq, Repr

/-- A plugin instance's mutable state: its metadata counters plus
`_is_healthy` and `_last_error`. -/
structure PluginState where
  meta : PluginMeta
  is_healthy : Bool
  last_error : Option ErrInfo
deriving DecidableEq, Repr

/-- `BasePlugin.handle_error`: mark unhealthy, record last-error detail,
increment `error_count`. -/
def handle_error (e ctx t : String) (st : PluginState) : PluginState :=
  { st with
    is_healthy := false
    last_error := some ⟨e, ctx, t⟩
    meta := { st.meta with error_count := st.meta.error_count + 1 } }

/-- `BasePlugin.log_execution`: stamp `last_execution`, increment
`execution_count`, mark healthy. -/
def log_execution (t : String) (st : PluginState) : PluginState :=
  { st with
    is_healthy := true
    meta := { st.meta with
              last_execution := some t
              execution_count := st.meta.execution_count + 1 } }

/-- `job_data.get('metadata', {}).get('active', True)`. -/
def metaActive (jd : JobData) : Bool :=
  match jd.metadata with
  | none => true
  | some m => m.active.getD true

/-- `_is_plugin_active` (identical in `BaseSender`, `BaseHandler` and
`BaseHybrid`): read the record from storage; when found, its `active` flag
(defaulting to `true`); `true` when missing, invalid, or on any error. -/
def is_plugin_active (s : Store) (jobId : String) : Bool :=
  match load_job s jobId with
  | some jd => metaActive jd
  | none => true

/-- Outcome of running the plugin body (`send()` / `handle()`): normal return
or a raised exception carrying a message. -/
inductive BodyOutcome where
  | ok : BodyOutcome
  | err (msg : String) : BodyOutcome
deriving DecidableEq, Repr

def BodyOutcome.isOk : BodyOutcome → Bool
  | .ok => true
  | .err _ => false

/-- `BaseSender._safe_send_wrapper` (also `BaseHybrid`'s): gate on the active
flag, run the body, then `log_execution` on success or `handle_error` on a
raised exception; nothing propagates to the scheduler.  Returns the new plugin
state and whether the body was invoked.  The scheduler's own live/paused state
is not consulted at all. -/
def safe_send_wrapper (s : Store) (jobId : String) (outcome : BodyOutcome)
    (t : String) (st : PluginState) : PluginState × Bool :=
  if is_plugin_active s jobId then
    match outcome with
    | .ok => (log_execution t st, true)
    | .err m => (handle_error m "sending message" t st, true)
  else (st, false)

/-- `BaseHandler._safe_handle_wrapper` (also `BaseHybrid`'s): same gate and
capture discipline as the send wrapper, with the `"handling message"` error
context; the best-effort user notice on failure touches no plugin state and
itself never raises. -/
def safe_handle_wrapper (s : Store) (jobId : String) (outcome : BodyOutcome)
    (t : String) (st : PluginState) : PluginState × Bool :=
  if is_plugin_active s jobId then
    match outcome with
    | .ok => (log_execution t st, true)
    | .err m => (handle_error m "handling message" t st, true)
  else (st, false)

/-- One timer fire of a job at the system level: the trigger engine invokes
`_safe_send_wrapper`, which reads the store only for the active gate and
updates the plugin instance's in-memory metadata.  The source's wrapper path
(`base_sender.py` lines 102-113) contains no storage write — `save_job` is
never called there — so the store passes through a fire unchanged; the
durable record's counters are not rewritten by execution. -/
def fire_job (s : Store) (jobId : String) (outcome : BodyOutcome) (t : String)
    (st : PluginState) : Store × PluginState × Bool :=
  (s, safe_send_wrapper s jobId outcome t st)

/-- One fire of a job as seen by its safe wrapper: the store contents at gate
time, the body's outcome were it run, and the invocation timestamp. -/
abbrev TraceEvent := Store × BodyOutcome × String

/-- A sequence of fires of the same job driven through the send wrapper. -/
def run_trace (jobId : String) (evs : List TraceEvent) (st : PluginState) :
    PluginState :=
  evs.foldl (fun s ev => (safe_send_wrapper ev.1 jobId ev.2.1 ev.2.2 s).1) st

/-- An invocation whose gate passed and whose body returned normally. -/
def isSuccessEv (jobId : String) (ev : TraceEvent) : Bool :=
  is_plugin_active ev.1 jobId && ev.2.1.isOk

/-- An invocation whose gate passed and whose body raised. -/
def isFailureEv (jobId : String) (ev : TraceEvent) : Bool :=
  is_plugin_active ev.1 jobId && !ev.2.1.isOk

/-! ### The trigger engine (APScheduler) and the scheduler coordinator -/

/-- A live APScheduler job: the trigger alias it was created with and its
paused state (`pause()` clears `next_run_time`). -/
structure SchedJob where
  trigger : String
  paused : Bool
deriving DecidableEq, Repr

/-- The live in-memory schedule, keyed by job id. -/
abbrev SchedState := List (String × SchedJob)

/-- The trigger aliases APScheduler resolves; anything else (such as the
sentinel `none` stored for handler-only records) makes `add_job` raise. -/
def knownTriggers : List String := ["interval", "cron", "date"]

/-- `SchedulerManager.add_job`: APScheduler's `add_job` succeeds for a fresh
id and a recognized trigger alias, and raises (caught, reported as `false`)
on a duplicate id or an unknown trigger.  Kind-specific trigger parameters
are abstracted away. -/
def add_job (sc : SchedState) (id trigger : String) : SchedState × Bool :=
  if (List.lookup id sc).isSome || !knownTriggers.contains trigger then
    (sc, false)
  else
    ((id, ⟨trigger, false⟩) :: sc, true)

/-- `job.pause()` on the live job with the given id. -/
def pauseJob (sc : SchedState) (id : String) : SchedState :=
  sc.map (fun p => if p.1 == id then (p.1, { p.2 with paused := true }) else p)

/-- The coordinator's state: the live scheduler, the on-disk store, and the
in-process `_plugin_registry` (tracked by job id). -/
structure SysState where
  sched : SchedState
  store : Store
  registry : List String
deriving DecidableEq, Repr

/-- `self._plugin_registry[id] = instance` (dict assignment overwrites). -/
def regInsert (r : List String) (id : String) : List String :=
  id :: r.filter (fun x => x != id)

/-- `self._plugin_registry.pop(id, None)`. -/
def regRemove (r : List String) (id : String) : List String :=
  r.filter (fun x => x != id)

/-- The trigger value a `**schedule` splat hands to `add_job`, when the call
is even well-formed (a non-dict or a dict without `trigger` raises at the
call site). -/
def schedTrigger : SchedVal → Option String
  | .notDict => none
  | .dict es => es.lookup "trigger"

/-- `SchedulerManager.register_plugin_job`: read `job_id` and `schedule` from
the dict (a missing key raises into the outer `except`, which pops the
registry entry), put the instance in the registry, schedule with APScheduler,
and on scheduling success call `save_job` — whose boolean result the source
discards — and return `true`.  On scheduling failure the registry entry is
popped and `false` returned. -/
def register_plugin_job (st : SysState) (jd : JobData) (now : String) :
    SysState × Bool :=
  match jd.job_id with
  | none => (st, false)
  | some id =>
    match jd.schedule with
    | none => ({ st with registry := regRemove st.registry id }, false)
    | some sv =>
      let reg1 := regInsert st.registry id
      match schedTrigger sv with
      | none => ({ st with registry := regRemove reg1 id }, false)
      | some trig =>
        let sr := add_job st.sched id trig
        if sr.2 then
          let stored := save_job st.store jd now
          ({ sched := sr.1, store := stored.1, registry := reg1 }, true)
        else
          ({ st with registry := regRemove reg1 id }, false)

/-- `SchedulerManager.remove_job`: `scheduler.remove_job` raises
`JobLookupError` for an unknown id, which the `except` turns into an
immediate `false` — the store delete and registry pop below it never run.
When the job is live, all three removals happen and `true` is returned
(`delete_job`'s boolean is ignored). -/
def remove_job (st : SysState) (id : String) : SysState × Bool :=
  if (List.lookup id st.sched).isSome then
    let sc := st.sched.filter (fun p => p.1 != id)
    let dr := delete_job st.store id
    ({ sched := sc, store := dr.1, registry := regRemove st.registry id }, true)
  else
    (st, false)

/-- The reply the admin `/plugins disable` flow sends back. -/
inductive AdminReply where
  | notFound : AdminReply
  | alreadyDisabled : AdminReply
  | disabledPaused : AdminReply
  | disabledNotInSched : AdminReply
  | disabledHandlerNote : AdminReply
  | errorReply : AdminReply
deriving DecidableEq, Repr

/-- `PluginManagerCommand._disable_plugin`: load the record (not found → no
change), bail out if already inactive, set `metadata['active'] = False`
(a record without a `metadata` dict raises into the `except`), save, and pause
the live scheduler job only when `plugin_type == 'outgoing'`; incoming and
hybrid jobs just get the restart note. -/
def disable_plugin (st : SysState) (jobId : String) (now : String) :
    SysState × AdminReply :=
  match load_job st.store jobId with
  | none => (st, .notFound)
  | some jd =>
    if !metaActive jd then (st, .alreadyDisabled)
    else
      match jd.metadata with
      | none => (st, .errorReply)
      | some m =>
        let jd' := { jd with metadata := some { m with active := some false } }
        let stored := save_job st.store jd' now
        if jd.plugin_type == some "outgoing" then
          if (List.lookup jobId st.sched).isSome then
            ({ st with store := stored.1, sched := pauseJob st.sched jobId },
             .disabledPaused)
          else
            ({ st with store := stored.1 }, .disabledNotInSched)
        else
          ({ st with store := stored.1 }, .disabledHandlerNote)

/-! ### The restore-at-startup loop of `src/main.py` -/

/-- `main.plugin_loader`: the static (type, name, class) lookup table.  Hybrid
loading is not implemented and every unknown triple yields `None`. -/
def plugin_loader_resolves (jd : JobData) : Bool :=
  (jd.plugin_type == some "outgoing" && jd.plugin_name == some "tests" &&
      jd.plugin_class == some "TestPlugin") ||
  (jd.plugin_type == some "incoming" && jd.plugin_name == some "plugin_manager" &&
      jd.plugin_class == some "PluginManagerCommand")

/-- The state the restore loop threads: the fresh scheduler and registry plus
the three counters `main` keeps. -/
structure RestoreState where
  sched : SchedState
  registry : List String
  loaded_outgoing : Nat
  loaded_incoming : Nat
  skipped_inactive : Nat
deriving DecidableEq, Repr

/-- The id a loaded record is registered under (`job_data['job_id']`; loaded
records always carry one). -/
def jobIdOf (jd : JobData) : String :=
  jd.job_id.getD ""

/-- One iteration of `main`'s restore loop: skip (and count) an inactive
record; drop a record the loader cannot resolve; for an outgoing record call
`add_job` with the record's stored schedule and, on success, fill the
registry under the RECORD's `job_id` (`main.py` line 126) and count it; for
an incoming record call `register_handler(save_to_storage=False)`, which
registers the handler (its config is fixed and accepted), fills the registry
under the CLASS-derived id `self.get_job_id()` — always
`"PluginManagerCommand_handler"`, the only incoming class the loader
resolves (`base_handler.py` lines 82-84 and 182) — and returns `true`, so
the record is counted.  A resolvable record is outgoing or incoming by
construction of the loader.  Per-record failures are contained by the loop's
`except`. -/
def restore_step (rs : RestoreState) (jd : JobData) : RestoreState :=
  if !metaActive jd then
    { rs with skipped_inactive := rs.skipped_inactive + 1 }
  else if !plugin_loader_resolves jd then rs
  else if jd.plugin_type == some "outgoing" then
    match schedTrigger (jd.schedule.getD SchedVal.notDict) with
    | none => rs
    | some trig =>
      if (add_job rs.sched (jobIdOf jd) trig).2 then
        { rs with
          sched := (add_job rs.sched (jobIdOf jd) trig).1
          registry := regInsert rs.registry (jobIdOf jd)
          loaded_outgoing := rs.loaded_outgoing + 1 }
      else rs
  else
    { rs with
      registry := regInsert rs.registry "PluginManagerCommand_handler"
      loaded_incoming := rs.loaded_incoming + 1 }

/-- `main`'s restore loop over an already-loaded job list. -/
def restore_list (jobs : List JobData) : RestoreState :=
  jobs.foldl restore_step ⟨[], [], 0, 0, 0⟩

/-- The whole restore pass: `load_all_jobs` on the store, then the loop,
starting from a fresh scheduler and empty registry. -/
def restore_main (s : Store) : RestoreState :=
  restore_list (load_all_jobs s)

/-! ### Sample records used by witnesses and counterexamples -/

/-- The schedule `TestPlugin.get_schedule` returns. -/
def sampleSched : SchedVal := .dict [("trigger", "interval"), ("minutes", "5")]

/-- The record `BaseSender.register_job` builds for `TestPlugin`. -/
def recOutgoing : JobData :=
  create_job_data "TestPlugin_job" "outgoing" "tests" "TestPlugin" sampleSched
    "Test plugin" true "t0"

/-- The record `BaseHandler.register_handler` builds for
`PluginManagerCommand` (handler-only, sentinel trigger `none`). -/
def recIncoming : JobData :=
  create_job_data "PluginManagerCommand_handler" "incoming" "plugin_manager"
    "PluginManagerCommand" (.dict [("trigger", "none")]) "Plugin management" true "t0"

/-- A hybrid-kind record with a live interval schedule. -/
def recHybrid : JobData :=
  create_job_data "Reminder_job" "hybrid" "reminders" "ReminderPlugin" sampleSched
    "Reminder plugin" true "t0"

/-! ### Validation helper lemmas -/

/-- Validation never looks at `metadata`. -/
theorem validate_metadata_irrel (jd : JobData) (md : Option MetaData) :
    validate_job_data { jd with metadata := md } = validate_job_data jd := by
  cases jd with
  | mk ji pt pn pc sc md0 sa vv => rfl

/-- A validated record carries a `job_id`. -/
theorem validate_job_id_isSome (jd : JobData) (h : validate_job_data jd = true) :
    jd.job_id.isSome = true := by
  rcases jd with ⟨ji, pt, pn, pc, sc, md, sa, vv⟩
  rcases ji with _ | ji <;> rcases pt with _ | pt <;> rcases pn with _ | pn <;>
    rcases pc with _ | pc <;> rcases sc with _ | sv <;>
    simp_all [validate_job_data]

/-- Loading yields only records that pass validation. -/
theorem load_job_valid (s : Store) (id : String) (jd : JobData)
    (h : load_job s id = some jd) : validate_job_data jd = true := by
  unfold load_job at h
  rcases hl : List.lookup id s with _ | jd' <;> rw [hl] at h <;> dsimp only at h
  · exact Option.noConfusion h
  · by_cases hv : validate_job_data jd' = true
    · rw [if_pos hv] at h
      obtain rfl := Option.some.inj h
      exact hv
    · rw [if_neg hv] at h
      exact Option.noConfusion h

/-- Reading back right after a validated save returns the saved record with
`saved_at` and `version` stamped. -/
theorem load_after_save (s : Store) (r : JobData) (id now : String)
    (hid : r.job_id = some id) (hv : validate_job_data r = true) :
    load_job (save_job s r now).1 id =
      some { r with saved_at := some now, version := some "1.0" } := by
  unfold save_job
  rw [if_pos hv]
  unfold load_job
  have hgd : r.job_id.getD "" = id := by rw [hid]; rfl
  have hself : (id == id) = true := by simp
  simp only [hgd, List.lookup, hself]
  rw [validate_stamp, if_pos hv]

/-- After a validated save, exactly one record in the store bears the id. -/
theorem save_unique_key (s : Store) (r : JobData) (id now : String)
    (hid : r.job_id = some id) (hv : validate_job_data r = true) :
    ((save_job s r now).1.filter (fun p => p.1 == id)).length = 1 := by
  unfold save_job
  rw [if_pos hv]
  have hgd : r.job_id.getD "" = id := by rw [hid]; rfl
  have hself : (id == id) = true := by simp
  simp only [hgd, List.filter_cons, hself, if_true]
  rw [filter_key_storeErase]
  rfl

/-! ### Claim-side failure conditions for the store's create operation -/

/-- One of the five required fields is absent. -/
def missingRequiredField (jd : JobData) : Bool :=
  jd.job_id.isNone || jd.plugin_type.isNone || jd.plugin_name.isNone ||
  jd.plugin_class.isNone || jd.schedule.isNone

/-- `plugin_type` is not one of outgoing/incoming/hybrid. -/
def unknownPluginType (jd : JobData) : Bool :=
  !(jd.plugin_type == some "outgoing" || jd.plugin_type == some "incoming" ||
    jd.plugin_type == some "hybrid")

/-- `schedule` is not an object containing a `trigger` key. -/
def scheduleLacksTrigger (jd : JobData) : Bool :=
  match jd.schedule with
  | some (SchedVal.dict es) => !(es.lookup "trigger").isSome
  | _ => true

/-- The source's validator agrees with the claim's wording of the failure
condition. -/
theorem validate_eq_claim (jd : JobData) :
    validate_job_data jd =
      !(missingRequiredField jd || unknownPluginType jd || scheduleLacksTrigger jd) := by
  rcases jd with ⟨ji, pt, pn, pc, sc, md, sa, vv⟩
  rcases ji with _ | ji <;> rcases pt with _ | pt <;> rcases pn with _ | pn <;>
    rcases pc with _ | pc <;> rcases sc with _ | (_ | es) <;>
    simp_all [validate_job_data, missingRequiredField, unknownPluginType,
      scheduleLacksTrigger, validTypes, schedHasTrigger, beq_eq_decide,
      Bool.or_assoc]

/-! ### Claims C7, C8, C9 — the Job Record Store -/

/-- `recOutgoing` already carrying schema version `"2.0"`; still valid, since
`_validate_job_data` never inspects `version`. -/
def recV2 : JobData := { recOutgoing with version := some "2.0" }

/-- Claim C7 counterexample: for the valid record `recV2` (whose `version` is
`"2.0"`), the record read back after `save_job` is NOT equal to `recV2` with
only `saved_at` changed — `save_job` also overwrites `version` to `"1.0"` —
so the read-back is not "equal to r except for the saved_at field". -/
theorem c7_roundtrip_counterexample :
    validate_job_data recV2 = true ∧
    (save_job [] recV2 "t1").2 = true ∧
    (∀ sa : Option String,
      load_job (save_job [] recV2 "t1").1 "TestPlugin_job" ≠
        some { recV2 with saved_at := sa }) := by
  refine ⟨by decide, by decide, ?_⟩
  intro sa h
  have h1 : (load_job (save_job [] recV2 "t1").1 "TestPlugin_job").map
      JobData.version = some (some "1.0") := by decide
  rw [h] at h1
  have h2 : ({ recV2 with saved_at := sa } : JobData).version = some "2.0" := rfl
  simp only [Option.map_some'] at h1
  rw [h2] at h1
  simp at h1

/-- Claim C7 (amended): for every valid record `r`, reading back after create
returns `r` with `saved_at` set to the write time and `version` overwritten
to `"1.0"` (the only two fields that differ); and re-creating with the same
`job_id` replaces rather than duplicates — the store holds exactly one record
under that id afterwards. -/
theorem c7_roundtrip_amended (s : Store) (r : JobData) (id now : String)
    (hid : r.job_id = some id) (hv : validate_job_data r = true) :
    load_job (save_job s r now).1 id =
      some { r with saved_at := some now, version := some "1.0" } ∧
    ((save_job s r now).1.filter (fun p => p.1 == id)).length = 1 :=
  ⟨load_after_save s r id now hid hv, save_unique_key s r id now hid hv⟩

/-- Witness for the amended C7 at a concrete record, on a store already
holding a record under the same id (so the save replaces it). -/
theorem c7_roundtrip_amended_witness :
    load_job (save_job [("TestPlugin_job", recV2)] recOutgoing "t1").1
        "TestPlugin_job" =
      some { recOutgoing with saved_at := some "t1", version := some "1.0" } ∧
    ((save_job [("TestPlugin_job", recV2)] recOutgoing "t1").1.filter
        (fun p => p.1 == "TestPlugin_job")).length = 1 :=
  c7_roundtrip_amended [("TestPlugin_job", recV2)] recOutgoing "TestPlugin_job"
    "t1" (by decide) (by decide)

/-- Claim C8: the store's create operation fails — writing nothing, leaving
the store unchanged — exactly when a required field among job_id,
plugin_type, plugin_name, plugin_class, schedule is absent, or plugin_type is
not one of outgoing/incoming/hybrid, or schedule is not an object containing
a trigger key; otherwise it writes the record keyed by its job_id. -/
theorem c8_create_validation (s : Store) (jd : JobData) (now : String) :
    ((save_job s jd now).2 = false ↔
      (missingRequiredField jd || unknownPluginType jd ||
        scheduleLacksTrigger jd) = true) ∧
    ((save_job s jd now).2 = false → (save_job s jd now).1 = s) ∧
    ((save_job s jd now).2 = true →
      ∃ id, jd.job_id = some id ∧
        load_job (save_job s jd now).1 id =
          some { jd with saved_at := some now, version := some "1.0" }) := by
  by_cases hv : validate_job_data jd = true
  · have hcond : (missingRequiredField jd || unknownPluginType jd ||
        scheduleLacksTrigger jd) = false := by
      rw [validate_eq_claim] at hv
      simpa using hv
    refine ⟨by simp [save_job, hv, hcond], by simp [save_job, hv], ?_⟩
    intro _
    have hs := validate_job_id_isSome jd hv
    obtain ⟨id, hj⟩ := Option.isSome_iff_exists.mp hs
    exact ⟨id, hj, load_after_save s jd id now hj hv⟩
  · have hv' : validate_job_data jd = false := by
      simpa using hv
    have hcond : (missingRequiredField jd || unknownPluginType jd ||
        scheduleLacksTrigger jd) = true := by
      cases hb : (missingRequiredField jd || unknownPluginType jd ||
          scheduleLacksTrigger jd) with
      | false => rw [validate_eq_claim, hb] at hv'; simp at hv'
      | true => rfl
    refine ⟨by simp [save_job, hv', hcond], by simp [save_job, hv'],
      by simp [save_job, hv']⟩

/-- Witness for C8: a record missing `plugin_class` is rejected with the
store untouched, and the valid handler record is written and read back. -/
theorem c8_create_validation_witness :
    (save_job [] { recIncoming with plugin_class := none } "t1").1 = [] ∧
    load_job (save_job [] recIncoming "t1").1 "PluginManagerCommand_handler" =
      some { recIncoming with saved_at := some "t1", version := some "1.0" } := by
  constructor
  · exact (c8_create_validation [] { recIncoming with plugin_class := none }
      "t1").2.1 (by decide)
  · obtain ⟨id, hid, hload⟩ :=
      (c8_create_validation [] recIncoming "t1").2.2 (by decide)
    have hid' : id = "PluginManagerCommand_handler" := by
      have h2 := hid
      simp [recIncoming, create_job_data] at h2
      exact h2.symm
    rw [hid'] at hload
    exact hload

/-- Claim C9: `delete_job` returns `true` exactly when a record existed (and
then it removes it), returns `false` raising nothing when it did not, and a
second delete of the same id in a row returns `false`. -/
theorem c9_delete_idempotent (s : Store) (id : String) :
    ((delete_job s id).2 = true ↔ job_exists s id = true) ∧
    ((delete_job s id).2 = true → List.lookup id (delete_job s id).1 = none) ∧
    ((delete_job s id).2 = false → (delete_job s id).1 = s) ∧
    (delete_job (delete_job s id).1 id).2 = false := by
  unfold delete_job job_exists
  by_cases h : (List.lookup id s).isSome
  · simp [h, storeErase, lookup_eraseKey]
  · simp [h]

/-- Witness for C9: deleting a present record succeeds; deleting again
returns `false`. -/
theorem c9_delete_idempotent_witness :
    (delete_job [("TestPlugin_job", recOutgoing)] "TestPlugin_job").2 = true ∧
    (delete_job (delete_job [("TestPlugin_job", recOutgoing)] "TestPlugin_job").1
        "TestPlugin_job").2 = false := by
  have h := c9_delete_idempotent [("TestPlugin_job", recOutgoing)] "TestPlugin_job"
  exact ⟨h.1.mpr (by decide), h.2.2.2⟩

/-! ### Claims C2, C3, C10 — the safe wrappers -/

/-- A freshly constructed plugin's state (`_get_default_metadata`):
no execution yet, zero counters, healthy, no last error. -/
def pluginSt0 : PluginState := ⟨⟨none, 0, 0⟩, true, none⟩

/-- One wrapper invocation adds one to `execution_count` exactly when the
gate passed and the body returned normally. -/
theorem wrapper_step_exec (jobId : String) (ev : TraceEvent) (st : PluginState) :
    (safe_send_wrapper ev.1 jobId ev.2.1 ev.2.2 st).1.meta.execution_count =
      st.meta.execution_count + (if isSuccessEv jobId ev then 1 else 0) := by
  unfold safe_send_wrapper isSuccessEv
  by_cases h : is_plugin_active ev.1 jobId = true
  · cases hob : ev.2.1 <;>
      simp [h, hob, log_execution, handle_error, BodyOutcome.isOk]
  · have h' : is_plugin_active ev.1 jobId = false := by simpa using h
    simp [h']

/-- One wrapper invocation adds one to `error_count` exactly when the gate
passed and the body raised. -/
theorem wrapper_step_err (jobId : String) (ev : TraceEvent) (st : PluginState) :
    (safe_send_wrapper ev.1 jobId ev.2.1 ev.2.2 st).1.meta.error_count =
      st.meta.error_count + (if isFailureEv jobId ev then 1 else 0) := by
  unfold safe_send_wrapper isFailureEv
  by_cases h : is_plugin_active ev.1 jobId = true
  · cases hob : ev.2.1 <;>
      simp [h, hob, log_execution, handle_error, BodyOutcome.isOk]
  · have h' : is_plugin_active ev.1 jobId = false := by simpa using h
    simp [h']

/-- Counter totals over a whole trace of wrapper invocations. -/
theorem run_trace_counts (jobId : String) (evs : List TraceEvent)
    (st : PluginState) :
    (run_trace jobId evs st).meta.execution_count =
      st.meta.execution_count + (evs.filter (isSuccessEv jobId)).length ∧
    (run_trace jobId evs st).meta.error_count =
      st.meta.error_count + (evs.filter (isFailureEv jobId)).length := by
  induction evs generalizing st with
  | nil => simp [run_trace]
  | cons ev evs ih =>
    have hrw : run_trace jobId (ev :: evs) st =
        run_trace jobId evs ((safe_send_wrapper ev.1 jobId ev.2.1 ev.2.2 st).1) :=
      rfl
    obtain ⟨ih1, ih2⟩ := ih ((safe_send_wrapper ev.1 jobId ev.2.1 ev.2.2 st).1)
    constructor
    · rw [hrw, ih1, wrapper_step_exec, List.filter_cons]
      by_cases h : isSuccessEv jobId ev = true <;> (simp [h]; try omega)
    · rw [hrw, ih2, wrapper_step_err, List.filter_cons]
      by_cases h : isFailureEv jobId ev = true <;> (simp [h]; try omega)

/-- Claim C2 (amended): the counters touched by execution are the plugin
instance's in-memory metadata (`BasePlugin.metadata`), not the stored job
record — a fire leaves the store unchanged (last conjunct, via `fire_job`).
Over any trace of wrapper invocations, the in-memory `execution_count` equals
its initial value plus the number of gate-passing successful invocations and
`error_count` the initial value plus the number of gate-passing failed ones;
each gate-passing success stamps `last_execution` and adds exactly one to
`execution_count`, each gate-passing failure adds exactly one to
`error_count` and records the last-error detail; a single invocation never
decreases either counter. -/
theorem c2_execution_counters (jobId : String) (evs : List TraceEvent)
    (st : PluginState) :
    (run_trace jobId evs st).meta.execution_count =
      st.meta.execution_count + (evs.filter (isSuccessEv jobId)).length ∧
    (run_trace jobId evs st).meta.error_count =
      st.meta.error_count + (evs.filter (isFailureEv jobId)).length ∧
    (∀ (s : Store) (t : String) (s0 : PluginState),
      is_plugin_active s jobId = true →
      (safe_send_wrapper s jobId BodyOutcome.ok t s0).1.meta.last_execution =
          some t ∧
      (safe_send_wrapper s jobId BodyOutcome.ok t s0).1.meta.execution_count =
          s0.meta.execution_count + 1 ∧
      (safe_send_wrapper s jobId BodyOutcome.ok t s0).1.meta.error_count =
          s0.meta.error_count) ∧
    (∀ (s : Store) (msg t : String) (s0 : PluginState),
      is_plugin_active s jobId = true →
      (safe_send_wrapper s jobId (BodyOutcome.err msg) t s0).1.meta.error_count =
          s0.meta.error_count + 1 ∧
      (safe_send_wrapper s jobId (BodyOutcome.err msg) t s0).1.last_error =
          some ⟨msg, "sending message", t⟩ ∧
      (safe_send_wrapper s jobId (BodyOutcome.err msg) t s0).1.meta.execution_count =
          s0.meta.execution_count) ∧
    (∀ (s : Store) (ob : BodyOutcome) (t : String) (s0 : PluginState),
      s0.meta.execution_count ≤
        (safe_send_wrapper s jobId ob t s0).1.meta.execution_count ∧
      s0.meta.error_count ≤
        (safe_send_wrapper s jobId ob t s0).1.meta.error_count) ∧
    (∀ (s : Store) (ob : BodyOutcome) (t : String) (s0 : PluginState),
      (fire_job s jobId ob t s0).1 = s) := by
  refine ⟨(run_trace_counts jobId evs st).1, (run_trace_counts jobId evs st).2,
    ?_, ?_, ?_, ?_⟩
  · intro s t s0 h
    simp [safe_send_wrapper, h, log_execution]
  · intro s msg t s0 h
    simp [safe_send_wrapper, h, handle_error]
  · intro s ob t s0
    by_cases h : is_plugin_active s jobId = true
    · cases ob <;> simp [safe_send_wrapper, h, log_execution, handle_error]
    · have h' : is_plugin_active s jobId = false := by simpa using h
      simp [safe_send_wrapper, h']
  · intro s ob t s0
    rfl

/-- Witness for C2: with the active `TestPlugin` record stored, a successful
invocation takes the fresh plugin's counter to one. -/
theorem c2_execution_counters_witness :
    (safe_send_wrapper [("TestPlugin_job", recOutgoing)] "TestPlugin_job"
        BodyOutcome.ok "t1" pluginSt0).1.meta.execution_count =
      pluginSt0.meta.execution_count + 1 :=
  ((c2_execution_counters "TestPlugin_job" [] pluginSt0).2.2.1
    [("TestPlugin_job", recOutgoing)] "t1" pluginSt0 (by decide)).2.1

/-- Claim C2 counterexample: one successful fire of the active `TestPlugin`
job runs the body and takes the in-memory execution counter to 1, yet the
store — and therefore the stored job record's `metadata.execution_count`
(still 0) and `metadata.last_execution` (still `None`) — is exactly as it
was: execution never updates the durable record's counters, so the claim
read of the stored job record is false. -/
theorem c2_counters_counterexample :
    (fire_job [("TestPlugin_job", recOutgoing)] "TestPlugin_job"
        BodyOutcome.ok "t1" pluginSt0).2.2 = true ∧
    (fire_job [("TestPlugin_job", recOutgoing)] "TestPlugin_job"
        BodyOutcome.ok "t1" pluginSt0).2.1.meta.execution_count = 1 ∧
    (fire_job [("TestPlugin_job", recOutgoing)] "TestPlugin_job"
        BodyOutcome.ok "t1" pluginSt0).1 = [("TestPlugin_job", recOutgoing)] ∧
    ((load_job (fire_job [("TestPlugin_job", recOutgoing)] "TestPlugin_job"
        BodyOutcome.ok "t1" pluginSt0).1 "TestPlugin_job").map
      (fun jd => jd.metadata.map
        (fun m => (m.execution_count, m.last_execution)))) =
      some (some (0, none)) := by
  decide

/-- Claim C3: when the stored record for a job reads back with
`metadata.active == false`, neither safe wrapper runs the body, raises, or
changes any state: both return the plugin state untouched with the
body-not-run flag.  Neither wrapper consults the trigger engine's live or
paused registration at all (their definitions take no scheduler state). -/
theorem c3_active_gate (s : Store) (jobId : String) (jd : JobData)
    (m : MetaData) (ob : BodyOutcome) (t : String) (st : PluginState)
    (hload : load_job s jobId = some jd)
    (hm : jd.metadata = some m)
    (hact : m.active = some false) :
    safe_send_wrapper s jobId ob t st = (st, false) ∧
    safe_handle_wrapper s jobId ob t st = (st, false) := by
  have hgate : is_plugin_active s jobId = false := by
    simp [is_plugin_active, hload, metaActive, hm, hact]
  constructor <;> simp [safe_send_wrapper, safe_handle_wrapper, hgate]

/-- The `TestPlugin` record as registered but with `active := false`. -/
def recOutgoingOff : JobData :=
  create_job_data "TestPlugin_job" "outgoing" "tests" "TestPlugin" sampleSched
    "Test plugin" false "t0"

/-- Witness for C3 at a concrete disabled record. -/
theorem c3_active_gate_witness :
    safe_send_wrapper [("TestPlugin_job", recOutgoingOff)] "TestPlugin_job"
        BodyOutcome.ok "t1" pluginSt0 = (pluginSt0, false) :=
  (c3_active_gate [("TestPlugin_job", recOutgoingOff)] "TestPlugin_job"
    recOutgoingOff ⟨"Test plugin", some false, "t0", none, 0, 0⟩
    BodyOutcome.ok "t1" pluginSt0 (by decide) (by decide) (by decide)).1

/-- Claim C10: when the job's record is absent from the store, or present but
failing validation, the active check returns `true` — the gate fails open —
and the wrappers do run the plugin body. -/
theorem c10_fail_open (s : Store) (jobId : String) (ob : BodyOutcome)
    (t : String) (st : PluginState)
    (h : List.lookup jobId s = none ∨
         ∀ jd, List.lookup jobId s = some jd → validate_job_data jd = false) :
    load_job s jobId = none ∧
    is_plugin_active s jobId = true ∧
    (safe_send_wrapper s jobId ob t st).2 = true ∧
    (safe_handle_wrapper s jobId ob t st).2 = true := by
  have hload : load_job s jobId = none := by
    unfold load_job
    rcases hl : List.lookup jobId s with _ | jd
    · rfl
    · rcases h with h | h
      · rw [hl] at h; exact Option.noConfusion h
      · have hv := h jd hl
        dsimp only
        rw [if_neg (by simp [hv])]
  have hgate : is_plugin_active s jobId = true := by
    unfold is_plugin_active
    rw [hload]
  refine ⟨hload, hgate, ?_, ?_⟩ <;>
    cases ob <;> simp [safe_send_wrapper, safe_handle_wrapper, hgate]

/-- The `TestPlugin` record with its `plugin_type` stripped, so it no longer
validates on read. -/
def recInvalid : JobData := { recOutgoing with plugin_type := none }

/-- Witness for C10: an invalid stored record reads as active and the body
runs. -/
theorem c10_fail_open_witness :
    is_plugin_active [("TestPlugin_job", recInvalid)] "TestPlugin_job" = true ∧
    (safe_send_wrapper [("TestPlugin_job", recInvalid)] "TestPlugin_job"
        BodyOutcome.ok "t1" pluginSt0).2 = true := by
  have h := c10_fail_open [("TestPlugin_job", recInvalid)] "TestPlugin_job"
    BodyOutcome.ok "t1" pluginSt0
    (Or.inr (fun jd hjd => by
      have hv : List.lookup "TestPlugin_job" [("TestPlugin_job", recInvalid)] =
          some recInvalid := rfl
      rw [hv] at hjd
      obtain rfl := Option.some.inj hjd
      decide))
  exact ⟨h.2.1, h.2.2.1⟩

/-! ### Claims C1, C4, C5 — the scheduler coordinator and the admin disable -/

/-- A job dict carrying `job_id` and a schedulable `schedule` but missing the
other required fields, so APScheduler accepts it while `save_job` rejects
it.  (In the deployed system the analogous save failure is a file-write
error; the validator wing of `save_job`'s ignored boolean is what the
embedding can exhibit.) -/
def jdNoType : JobData :=
  { job_id := some "X_job"
    plugin_type := none
    plugin_name := none
    plugin_class := none
    schedule := some (.dict [("trigger", "interval"), ("minutes", "5")])
    metadata := none
    saved_at := none
    version := none }

/-- The coordinator's state at process start. -/
def sys0 : SysState := ⟨[], [], []⟩

/-- Claim C1 (code bug in `register_plugin_job`): the store persist fails
(`save_job` returns `false`), yet register returns success, the job stays
live in the scheduler, the registry keeps its entry, and the store holds no
record — the rollback the claim (and the source's own "registered and
persisted" success message) promises never runs, because the source discards
`save_job`'s boolean result. -/
theorem c1_register_ignores_failed_persist :
    (save_job sys0.store jdNoType "t0").2 = false ∧
    (register_plugin_job sys0 jdNoType "t0").2 = true ∧
    (register_plugin_job sys0 jdNoType "t0").1.store = [] ∧
    List.lookup "X_job" (register_plugin_job sys0 jdNoType "t0").1.sched =
      some ⟨"interval", false⟩ ∧
    (register_plugin_job sys0 jdNoType "t0").1.registry = ["X_job"] := by
  decide

/-- A state whose store and registry know `TestPlugin_job` but whose trigger
engine does not (e.g. after a crash between store write and scheduling). -/
def sysC4 : SysState := ⟨[], [("TestPlugin_job", recOutgoing)], ["TestPlugin_job"]⟩

/-- Claim C4 counterexample: unregistering a job unknown to the trigger
engine does NOT remove its stored record or registry entry — the scheduler's
not-found exception aborts `remove_job` before either removal, returning
failure with the state untouched. -/
theorem c4_unregister_counterexample :
    (remove_job sysC4 "TestPlugin_job").2 = false ∧
    (remove_job sysC4 "TestPlugin_job").1 = sysC4 ∧
    job_exists (remove_job sysC4 "TestPlugin_job").1.store "TestPlugin_job" = true ∧
    "TestPlugin_job" ∈ (remove_job sysC4 "TestPlugin_job").1.registry := by
  decide

/-- Claim C4 (amended): `remove_job` is best-effort only below the trigger
engine step: when the job is live in the scheduler it removes it there, from
the store (ignoring `delete_job`'s boolean) and from the registry, returning
success; but a trigger-engine not-found aborts the operation immediately
with the store and registry untouched. -/
theorem c4_unregister_amended (st : SysState) (id : String) :
    (List.lookup id st.sched = none → remove_job st id = (st, false)) ∧
    (∀ j, List.lookup id st.sched = some j →
      (remove_job st id).2 = true ∧
      List.lookup id (remove_job st id).1.sched = none ∧
      job_exists (remove_job st id).1.store id = false ∧
      id ∉ (remove_job st id).1.registry) := by
  constructor
  · intro h
    simp [remove_job, h]
  · intro j hj
    have hs : (List.lookup id st.sched).isSome = true := by rw [hj]; rfl
    simp only [remove_job, hs, if_true]
    refine ⟨trivial, lookup_eraseKey st.sched id, ?_, ?_⟩
    · unfold job_exists delete_job
      by_cases hd : (List.lookup id st.store).isSome
      · rw [if_pos hd]
        simp [storeErase, lookup_eraseKey]
      · rw [if_neg hd]
        simp only [Bool.not_eq_true] at hd
        exact hd
    · exact not_mem_filter_ne_self st.registry id

/-- Witness for the amended C4 with the job live on all three sides. -/
theorem c4_unregister_amended_witness :
    (remove_job ⟨[("TestPlugin_job", ⟨"interval", false⟩)],
        [("TestPlugin_job", recOutgoing)], ["TestPlugin_job"]⟩
      "TestPlugin_job").2 = true ∧
    job_exists (remove_job ⟨[("TestPlugin_job", ⟨"interval", false⟩)],
        [("TestPlugin_job", recOutgoing)], ["TestPlugin_job"]⟩
      "TestPlugin_job").1.store "TestPlugin_job" = false := by
  have h := (c4_unregister_amended ⟨[("TestPlugin_job", ⟨"interval", false⟩)],
      [("TestPlugin_job", recOutgoing)], ["TestPlugin_job"]⟩ "TestPlugin_job").2
    ⟨"interval", false⟩ (by decide)
  exact ⟨h.1, h.2.2.1⟩

/-- `pause()` does not add or remove live registrations. -/
theorem map_fst_pauseJob (sc : SchedState) (id : String) :
    (pauseJob sc id).map Prod.fst = sc.map Prod.fst := by
  induction sc with
  | nil => rfl
  | cons p t ih =>
    show (if (p.1 == id) = true then (p.1, { p.2 with paused := true }) else p).1 ::
        (pauseJob t id).map Prod.fst = p.1 :: t.map Prod.fst
    rw [ih]
    by_cases h : (p.1 == id) = true
    · rw [if_pos h]
    · rw [if_neg h]

/-- Looking up the paused id finds the job with its `paused` flag set. -/
theorem lookup_pauseJob_self (sc : SchedState) (id : String) :
    List.lookup id (pauseJob sc id) =
      (List.lookup id sc).map (fun j => { j with paused := true }) := by
  induction sc with
  | nil => rfl
  | cons p t ih =>
    show List.lookup id
        ((if (p.1 == id) = true then (p.1, { p.2 with paused := true }) else p) ::
          pauseJob t id) =
      (List.lookup id (p :: t)).map (fun j => { j with paused := true })
    by_cases h : p.1 = id
    · have hb : (p.1 == id) = true := beq_iff_eq.mpr h
      have hb' : (id == p.1) = true := beq_iff_eq.mpr h.symm
      rw [if_pos hb]
      simp [List.lookup, hb']
    · have hb : (p.1 == id) = false := beq_eq_false_iff_ne.mpr h
      have hb' : (id == p.1) = false :=
        beq_eq_false_iff_ne.mpr (fun he => h he.symm)
      rw [if_neg (by simp [hb])]
      simp [List.lookup, hb', ih]

/-- A state with the hybrid record active in the store and its timer live
and unpaused in the scheduler. -/
def sysC5 : SysState :=
  ⟨[("Reminder_job", ⟨"interval", false⟩)], [("Reminder_job", recHybrid)],
    ["Reminder_job"]⟩

/-- Claim C5 counterexample: disabling an (active, live) HYBRID job sets
`metadata.active` to false in the store but does NOT pause its timer — the
source pauses only when `plugin_type == 'outgoing'`, so the hybrid job's
scheduler entry keeps `paused = false`. -/
theorem c5_disable_counterexample :
    ((load_job sysC5.store "Reminder_job").map metaActive) = some true ∧
    (disable_plugin sysC5 "Reminder_job" "t1").1.sched =
      [("Reminder_job", ⟨"interval", false⟩)] ∧
    ((load_job (disable_plugin sysC5 "Reminder_job" "t1").1.store
        "Reminder_job").map metaActive) = some false := by
  decide

/-- Claim C5 (amended): the admin disable of a found, currently-enabled
record sets `metadata.active` to false, leaving plugin identity, schedule and
counters unchanged (only `saved_at`/`version` are re-stamped by the save);
it never removes the trigger-engine registration or touches the registry;
and it pauses the timer only for an OUTGOING job that is live in the
scheduler — a hybrid job's timer is left running. -/
theorem c5_disable_amended (st : SysState) (jobId now : String) (jd : JobData)
    (m : MetaData)
    (hload : load_job st.store jobId = some jd)
    (hid : jd.job_id = some jobId)
    (hm : jd.metadata = some m)
    (hact : metaActive jd = true) :
    load_job (disable_plugin st jobId now).1.store jobId =
      some { jd with metadata := some { m with active := some false },
                     saved_at := some now, version := some "1.0" } ∧
    (disable_plugin st jobId now).1.sched.map Prod.fst = st.sched.map Prod.fst ∧
    (disable_plugin st jobId now).1.registry = st.registry ∧
    (jd.plugin_type = some "outgoing" →
      ∀ j, List.lookup jobId st.sched = some j →
        List.lookup jobId (disable_plugin st jobId now).1.sched =
          some { j with paused := true }) ∧
    (jd.plugin_type ≠ some "outgoing" →
      (disable_plugin st jobId now).1.sched = st.sched) := by
  have hv := load_job_valid st.store jobId jd hload
  have hv' : validate_job_data
      { jd with metadata := some { m with active := some false } } = true := by
    rw [validate_metadata_irrel]; exact hv
  have hid' : ({ jd with metadata := some { m with active := some false } } :
      JobData).job_id = some jobId := hid
  have hsave := load_after_save st.store
    { jd with metadata := some { m with active := some false } } jobId now hid' hv'
  have hnot : (!metaActive jd) = false := by rw [hact]; rfl
  unfold disable_plugin
  rw [hload]
  dsimp only
  rw [hnot, if_neg (by simp : ¬(false = true))]
  rw [hm]
  dsimp only
  by_cases hpt : (jd.plugin_type == some "outgoing") = true
  · rw [if_pos hpt]
    by_cases hlk : (List.lookup jobId st.sched).isSome = true
    · rw [if_pos hlk]
      refine ⟨hsave, map_fst_pauseJob st.sched jobId, rfl, ?_, ?_⟩
      · intro _ j hj
        rw [lookup_pauseJob_self, hj]
        rfl
      · intro hne
        exact absurd (by simpa using hpt) hne
    · rw [if_neg hlk]
      refine ⟨hsave, rfl, rfl, ?_, ?_⟩
      · intro _ j hj
        rw [hj] at hlk
        exact absurd rfl hlk
      · intro hne
        exact absurd (by simpa using hpt) hne
  · rw [if_neg hpt]
    refine ⟨hsave, rfl, rfl, ?_, fun _ => rfl⟩
    intro hpt' _ _
    exact absurd (by simp [hpt']) hpt

/-- A state with the outgoing `TestPlugin` record active and live. -/
def sysC5w : SysState :=
  ⟨[("TestPlugin_job", ⟨"interval", false⟩)], [("TestPlugin_job", recOutgoing)],
    []⟩

/-- Witness for the amended C5: disabling the live outgoing job flips the
stored flag to false and pauses the live timer. -/
theorem c5_disable_amended_witness :
    ((load_job (disable_plugin sysC5w "TestPlugin_job" "t1").1.store
        "TestPlugin_job").map metaActive = some false) ∧
    List.lookup "TestPlugin_job"
        (disable_plugin sysC5w "TestPlugin_job" "t1").1.sched =
      some ⟨"interval", true⟩ := by
  have h := c5_disable_amended sysC5w "TestPlugin_job" "t1" recOutgoing
    ⟨"Test plugin", some true, "t0", none, 0, 0⟩
    (by decide) (by decide) (by decide) (by decide)
  constructor
  · rw [h.1]
    decide
  · have h4 := h.2.2.2.1 (by decide) ⟨"interval", false⟩ (by decide)
    simpa using h4

/-! ### Claim C6 — restore at startup -/

/-- An active record the loader resolves to an outgoing plugin. -/
def resActiveOut (jd : JobData) : Bool :=
  metaActive jd && plugin_loader_resolves jd && (jd.plugin_type == some "outgoing")

/-- An active record the loader resolves to an incoming plugin. -/
def resActiveInc (jd : JobData) : Bool :=
  metaActive jd && plugin_loader_resolves jd && (jd.plugin_type == some "incoming")

/-- The record's stored schedule carries a trigger alias the trigger engine
recognizes. -/
def outTriggerKnown (jd : JobData) : Bool :=
  match schedTrigger (jd.schedule.getD SchedVal.notDict) with
  | some tr => knownTriggers.contains tr
  | none => false

/-- A triple the static loader resolves is outgoing or incoming — it never
produces a hybrid (hybrid loading is unimplemented) or unknown kind. -/
theorem resolves_out_or_inc (jd : JobData)
    (h : plugin_loader_resolves jd = true) :
    (jd.plugin_type == some "outgoing") = true ∨
      (jd.plugin_type == some "incoming") = true := by
  unfold plugin_loader_resolves at h
  simp only [Bool.or_eq_true, Bool.and_eq_true] at h
  rcases h with ⟨⟨h1, _⟩, _⟩ | ⟨⟨h1, _⟩, _⟩
  · exact Or.inl h1
  · exact Or.inr h1

theorem lookup_eq_none_of_not_mem_keys {β : Type} (l : List (String × β))
    (k : String) (h : k ∉ l.map Prod.fst) : List.lookup k l = none := by
  induction l with
  | nil => rfl
  | cons p t ih =>
    have hk : k ≠ p.1 := by
      intro he
      exact h (by rw [he]; exact List.mem_cons_self _ _)
    have hb : (k == p.1) = false := beq_eq_false_iff_ne.mpr hk
    simp only [List.lookup, hb]
    exact ih (fun hm => h (List.mem_cons_of_mem _ hm))

theorem lookup_self_of_nodup {β : Type} (l : List (String × β)) (p : String × β)
    (hnd : (l.map Prod.fst).Nodup) (hmem : p ∈ l) :
    List.lookup p.1 l = some p.2 := by
  induction l with
  | nil => cases hmem
  | cons q t ih =>
    rw [List.map_cons] at hnd
    obtain ⟨hq, hnd'⟩ := List.nodup_cons.mp hnd
    rcases List.mem_cons.mp hmem with rfl | hmem'
    · simp [List.lookup]
    · have hne : p.1 ≠ q.1 := by
        intro he
        exact hq (he ▸ List.mem_map_of_mem Prod.fst hmem')
      have hb : (p.1 == q.1) = false := beq_eq_false_iff_ne.mpr hne
      simp only [List.lookup, hb]
      exact ih hnd' hmem'

theorem filterMap_eq_map_of_forall_some {α β : Type} (f : α → Option β)
    (g : α → β) (l : List α) (h : ∀ a ∈ l, f a = some (g a)) :
    l.filterMap f = l.map g := by
  induction l with
  | nil => rfl
  | cons a t ih =>
    rw [List.filterMap_cons, h a (List.mem_cons_self a t), List.map_cons,
      ih (fun b hb => h b (List.mem_cons_of_mem a hb))]

/-- On a well-keyed store of valid records, `load_all_jobs` returns exactly
the stored records. -/
theorem load_all_eq_map_snd (s : Store)
    (hval : ∀ p ∈ s, validate_job_data p.2 = true)
    (hnd : (s.map Prod.fst).Nodup) :
    load_all_jobs s = s.map Prod.snd := by
  unfold load_all_jobs
  refine filterMap_eq_map_of_forall_some _ _ s (fun p hp => ?_)
  unfold load_job
  rw [lookup_self_of_nodup s p hnd hp]
  dsimp only
  rw [if_pos (hval p hp)]

theorem length_regInsert_not_mem (r : List String) (id : String) (h : id ∉ r) :
    (regInsert r id).length = r.length + 1 := by
  unfold regInsert
  rw [List.filter_eq_self.mpr (fun x hx => by
    have : x ≠ id := fun he => h (he ▸ hx)
    simpa [bne] using this)]
  rfl

theorem not_mem_regInsert (r : List String) (id x : String) (hx : x ≠ id)
    (hr : x ∉ r) : x ∉ regInsert r id := by
  intro hmem
  rcases List.mem_cons.mp hmem with h | h
  · exact hx h
  · exact hr (List.mem_filter.mp h).1

/-- An inactive record is skipped and counted; no other state changes. -/
theorem restore_step_inactive (rs : RestoreState) (jd : JobData)
    (h : metaActive jd = false) :
    restore_step rs jd =
      { rs with skipped_inactive := rs.skipped_inactive + 1 } := by
  unfold restore_step
  rw [h]
  rfl

/-- A record the loader cannot resolve changes nothing. -/
theorem restore_step_unresolved (rs : RestoreState) (jd : JobData)
    (hact : metaActive jd = true) (hres : plugin_loader_resolves jd = false) :
    restore_step rs jd = rs := by
  unfold restore_step
  rw [hact, hres]
  rfl

/-- An active, resolvable outgoing record whose stored trigger the engine
recognizes and whose id is fresh registers live and is counted. -/
theorem restore_step_out (rs : RestoreState) (jd : JobData)
    (hact : metaActive jd = true) (hres : plugin_loader_resolves jd = true)
    (hout : (jd.plugin_type == some "outgoing") = true) (tr : String)
    (htr : schedTrigger (jd.schedule.getD SchedVal.notDict) = some tr)
    (hkn : knownTriggers.contains tr = true)
    (hfresh : List.lookup (jobIdOf jd) rs.sched = none) :
    restore_step rs jd =
      { rs with
        sched := (jobIdOf jd, ⟨tr, false⟩) :: rs.sched
        registry := regInsert rs.registry (jobIdOf jd)
        loaded_outgoing := rs.loaded_outgoing + 1 } := by
  have haj : add_job rs.sched (jobIdOf jd) tr =
      ((jobIdOf jd, ⟨tr, false⟩) :: rs.sched, true) := by
    unfold add_job
    rw [hfresh, hkn]
    rfl
  unfold restore_step
  rw [hact, hres, hout, htr]
  simp [haj]

/-- An active, resolvable non-outgoing (hence incoming) record registers its
handler under the class-derived id and is counted. -/
theorem restore_step_inc (rs : RestoreState) (jd : JobData)
    (hact : metaActive jd = true) (hres : plugin_loader_resolves jd = true)
    (hout : (jd.plugin_type == some "outgoing") = false) :
    restore_step rs jd =
      { rs with
        registry := regInsert rs.registry "PluginManagerCommand_handler"
        loaded_incoming := rs.loaded_incoming + 1 } := by
  unfold restore_step
  rw [hact, hres, hout]
  rfl

/-- The restore loop, started on a scheduler fresh with respect to the
records' ids, counts exactly the active resolvable records — outgoing and
incoming separately — and skips-and-counts the inactive ones.  No record's
failure disturbs the others: the counts are plain filters over the input
list.  (The registry is threaded faithfully — outgoing entries under the
record's id, incoming entries under the class-derived
`"PluginManagerCommand_handler"`, which duplicate incoming records collapse
onto — but no size law is claimed for it.) -/
theorem restore_fold_spec (jobs : List JobData) :
    ∀ rs : RestoreState,
      (∀ jd ∈ jobs, resActiveOut jd = true → outTriggerKnown jd = true) →
      (jobs.map jobIdOf).Nodup →
      (∀ jd ∈ jobs, jobIdOf jd ∉ rs.sched.map Prod.fst) →
      (jobs.foldl restore_step rs).loaded_outgoing =
          rs.loaded_outgoing + (jobs.filter resActiveOut).length ∧
      (jobs.foldl restore_step rs).loaded_incoming =
          rs.loaded_incoming + (jobs.filter resActiveInc).length ∧
      (jobs.foldl restore_step rs).skipped_inactive =
          rs.skipped_inactive + (jobs.filter (fun jd => !metaActive jd)).length := by
  induction jobs with
  | nil =>
    intro rs _ _ _
    simp
  | cons jd jobs ih =>
    intro rs htrig hnodup hfs
    have hjmem : jd ∈ jd :: jobs := List.mem_cons_self _ _
    rw [List.map_cons] at hnodup
    obtain ⟨hnd1, hnd2⟩ := List.nodup_cons.mp hnodup
    have htrig' : ∀ x ∈ jobs, resActiveOut x = true → outTriggerKnown x = true :=
      fun x hx => htrig x (List.mem_cons_of_mem _ hx)
    rw [List.foldl_cons]
    by_cases hact : metaActive jd = true
    · by_cases hres : plugin_loader_resolves jd = true
      · by_cases hout : (jd.plugin_type == some "outgoing") = true
        · -- outgoing record: registers live
          have hro : resActiveOut jd = true := by
            unfold resActiveOut
            rw [hact, hres, hout]
            rfl
          have hri : resActiveInc jd = false := by
            unfold resActiveInc
            rw [hact, hres, eq_of_beq hout]
            decide
          have hsk : (!metaActive jd) = false := by
            rw [hact]
            rfl
          obtain ⟨tr, htr, hknown⟩ : ∃ tr,
              schedTrigger (jd.schedule.getD SchedVal.notDict) = some tr ∧
                knownTriggers.contains tr = true := by
            have hk := htrig jd hjmem hro
            unfold outTriggerKnown at hk
            rcases hsc : schedTrigger (jd.schedule.getD SchedVal.notDict)
              with _ | tr
            · rw [hsc] at hk
              simp at hk
            · rw [hsc] at hk
              exact ⟨tr, rfl, hk⟩
          have hfresh : List.lookup (jobIdOf jd) rs.sched = none :=
            lookup_eq_none_of_not_mem_keys _ _ (hfs jd hjmem)
          rw [restore_step_out rs jd hact hres hout tr htr hknown hfresh]
          have hfs' : ∀ x ∈ jobs, jobIdOf x ∉
              (((jobIdOf jd, (⟨tr, false⟩ : SchedJob)) :: rs.sched).map Prod.fst) := by
            intro x hx hmem
            rw [List.map_cons] at hmem
            rcases List.mem_cons.mp hmem with h | h
            · exact hnd1 ((show jobIdOf x = jobIdOf jd from h) ▸
                List.mem_map_of_mem jobIdOf hx)
            · exact hfs x (List.mem_cons_of_mem _ hx) h
          obtain ⟨ih1, ih2, ih3⟩ := ih
            { rs with
              sched := (jobIdOf jd, ⟨tr, false⟩) :: rs.sched
              registry := regInsert rs.registry (jobIdOf jd)
              loaded_outgoing := rs.loaded_outgoing + 1 }
            htrig' hnd2 hfs'
          refine ⟨?_, ?_, ?_⟩
          · rw [ih1]
            dsimp only
            rw [List.filter_cons, hro]
            simp
            omega
          · rw [ih2]
            dsimp only
            rw [List.filter_cons, hri]
            simp
          · rw [ih3]
            dsimp only
            rw [List.filter_cons]
            simp [hsk]
        · -- incoming record: registers its handler
          have hout' : (jd.plugin_type == some "outgoing") = false := by
            cases hb : (jd.plugin_type == some "outgoing")
            · rfl
            · exact absurd hb hout
          have hri : resActiveInc jd = true := by
            unfold resActiveInc
            rcases resolves_out_or_inc jd hres with h | h
            · exact absurd h hout
            · rw [hact, hres, h]
              rfl
          have hro : resActiveOut jd = false := by
            unfold resActiveOut
            rw [hact, hres, hout']
            rfl
          have hsk : (!metaActive jd) = false := by
            rw [hact]
            rfl
          rw [restore_step_inc rs jd hact hres hout']
          obtain ⟨ih1, ih2, ih3⟩ := ih
            { rs with
              registry := regInsert rs.registry "PluginManagerCommand_handler"
              loaded_incoming := rs.loaded_incoming + 1 }
            htrig' hnd2 (fun x hx => hfs x (List.mem_cons_of_mem _ hx))
          refine ⟨?_, ?_, ?_⟩
          · rw [ih1]
            dsimp only
            rw [List.filter_cons, hro]
            simp
          · rw [ih2]
            dsimp only
            rw [List.filter_cons, hri]
            simp
            omega
          · rw [ih3]
            dsimp only
            rw [List.filter_cons]
            simp [hsk]
      · -- unresolvable record: skipped without aborting the rest
        have hres' : plugin_loader_resolves jd = false := by
          cases hb : plugin_loader_resolves jd
          · rfl
          · exact absurd hb hres
        have hro : resActiveOut jd = false := by
          unfold resActiveOut
          rw [hact, hres']
          rfl
        have hri : resActiveInc jd = false := by
          unfold resActiveInc
          rw [hact, hres']
          rfl
        have hsk : (!metaActive jd) = false := by
          rw [hact]
          rfl
        rw [restore_step_unresolved rs jd hact hres']
        obtain ⟨ih1, ih2, ih3⟩ := ih rs htrig' hnd2
          (fun x hx => hfs x (List.mem_cons_of_mem _ hx))
        refine ⟨?_, ?_, ?_⟩
        · rw [ih1, List.filter_cons, hro]
          simp
        · rw [ih2, List.filter_cons, hri]
          simp
        · rw [ih3, List.filter_cons]
          simp [hsk]
    · -- inactive record: skipped and counted
      have hact' : metaActive jd = false := by
        cases hb : metaActive jd
        · rfl
        · exact absurd hb hact
      have hro : resActiveOut jd = false := by
        unfold resActiveOut
        rw [hact']
        rfl
      have hri : resActiveInc jd = false := by
        unfold resActiveInc
        rw [hact']
        rfl
      have hsk : (!metaActive jd) = true := by
        rw [hact']
        rfl
      rw [restore_step_inactive rs jd hact']
      obtain ⟨ih1, ih2, ih3⟩ := ih
        { rs with skipped_inactive := rs.skipped_inactive + 1 }
        htrig' hnd2
        (fun x hx => hfs x (List.mem_cons_of_mem _ hx))
      refine ⟨?_, ?_, ?_⟩
      · rw [ih1]
        dsimp only
        rw [List.filter_cons, hro]
        simp
      · rw [ih2]
        dsimp only
        rw [List.filter_cons, hri]
        simp
      · rw [ih3]
        dsimp only
        rw [List.filter_cons]
        simp [hsk]
        omega

/-- Active records split into resolvable and unresolvable ones. -/
theorem filter_active_split (l : List JobData) :
    (l.filter (fun jd => metaActive jd)).length =
      (l.filter (fun jd => metaActive jd && plugin_loader_resolves jd)).length +
      (l.filter (fun jd => metaActive jd && !plugin_loader_resolves jd)).length := by
  induction l with
  | nil => rfl
  | cons jd t ih =>
    by_cases hact : metaActive jd = true
    · by_cases hres : plugin_loader_resolves jd = true
      · simp [List.filter_cons, hact, hres, ih]
        omega
      · have hres' : plugin_loader_resolves jd = false := by
          cases hb : plugin_loader_resolves jd
          · rfl
          · exact absurd hb hres
        simp [List.filter_cons, hact, hres', ih]
        omega
    · have hact' : metaActive jd = false := by
        cases hb : metaActive jd
        · rfl
        · exact absurd hb hact
      simp [List.filter_cons, hact', ih]

/-- Active resolvable records split into outgoing and incoming ones. -/
theorem filter_res_split (l : List JobData) :
    (l.filter (fun jd => metaActive jd && plugin_loader_resolves jd)).length =
      (l.filter resActiveOut).length + (l.filter resActiveInc).length := by
  induction l with
  | nil => rfl
  | cons jd t ih =>
    by_cases hact : metaActive jd = true
    · by_cases hres : plugin_loader_resolves jd = true
      · rcases resolves_out_or_inc jd hres with hout | hinc
        · have h1 : resActiveOut jd = true := by
            unfold resActiveOut
            rw [hact, hres, hout]
            rfl
          have h2 : resActiveInc jd = false := by
            unfold resActiveInc
            rw [hact, hres, eq_of_beq hout]
            decide
          rw [List.filter_cons, List.filter_cons, List.filter_cons, h1, h2]
          simp [hact, hres, ih]
          omega
        · have h2 : resActiveInc jd = true := by
            unfold resActiveInc
            rw [hact, hres, hinc]
            rfl
          have h1 : resActiveOut jd = false := by
            unfold resActiveOut
            rw [hact, hres, eq_of_beq hinc]
            decide
          rw [List.filter_cons, List.filter_cons, List.filter_cons, h1, h2]
          simp [hact, hres, ih]
          omega
      · have hres' : plugin_loader_resolves jd = false := by
          cases hb : plugin_loader_resolves jd
          · rfl
          · exact absurd hb hres
        have h1 : resActiveOut jd = false := by
          unfold resActiveOut
          rw [hact, hres']
          rfl
        have h2 : resActiveInc jd = false := by
          unfold resActiveInc
          rw [hact, hres']
          rfl
        rw [List.filter_cons, List.filter_cons, List.filter_cons, h1, h2]
        simp [hact, hres', ih]
    · have hact' : metaActive jd = false := by
        cases hb : metaActive jd
        · rfl
        · exact absurd hb hact
      have h1 : resActiveOut jd = false := by
        unfold resActiveOut
        rw [hact']
        rfl
      have h2 : resActiveInc jd = false := by
        unfold resActiveInc
        rw [hact']
        rfl
      rw [List.filter_cons, List.filter_cons, List.filter_cons, h1, h2]
      simp [hact', ih]

/-- Filter-lengths over loaded records equal filter-lengths over the store. -/
theorem length_filter_map_snd (s : Store) (q : JobData → Bool) :
    ((s.map Prod.snd).filter q).length = (s.filter (fun p => q p.2)).length := by
  rw [List.filter_map, List.length_map]
  rfl

/-- A store holding one active, loader-resolvable outgoing record whose
stored schedule carries the (store-valid, engine-unknown) trigger `none`. -/
def storeC6 : Store :=
  [("TestPlugin_job",
    create_job_data "TestPlugin_job" "outgoing" "tests" "TestPlugin"
      (.dict [("trigger", "none")]) "Test plugin" true "t0")]

/-- Claim C6 counterexample: on `storeC6`, N = 1 active records of which
K = 0 are loader-unresolvable, yet the restore pass registers 0 live jobs,
not N − K = 1: the record resolves, but `add_job` rejects its stored trigger
alias `none`, which the store's validation admits. -/
theorem c6_restore_counterexample :
    ((load_all_jobs storeC6).filter (fun jd => metaActive jd)).length = 1 ∧
    ((load_all_jobs storeC6).filter
        (fun jd => metaActive jd && !plugin_loader_resolves jd)).length = 0 ∧
    (restore_main storeC6).loaded_outgoing = 0 ∧
    (restore_main storeC6).loaded_incoming = 0 ∧
    (restore_main storeC6).registry = [] := by
  decide

/-- Claim C6 (amended): over every store whose records validate and are keyed
by their own distinct `job_id`s (the shape `save_job` maintains), and whose
active loader-resolvable outgoing records carry a trigger alias the trigger
engine recognizes, the restore pass registers exactly N − K live jobs as
counted by the loop's outgoing+incoming totals — N the number of active
records, K the number of active records the loader cannot resolve; every
inactive record is skipped for live registration and counted; no record's
failure aborts the rest; and the counts are invariant under any reordering of
the loaded records.  (No registry-size law holds: incoming handlers are
registered under the class-derived id, so duplicate-class records collapse
onto one registry entry.) -/
theorem c6_restore_amended (s : Store)
    (hval : ∀ p ∈ s, validate_job_data p.2 = true)
    (hnd : (s.map Prod.fst).Nodup)
    (hid : ∀ p ∈ s, p.2.job_id = some p.1)
    (htrig : ∀ p ∈ s, resActiveOut p.2 = true → outTriggerKnown p.2 = true) :
    (restore_main s).loaded_outgoing + (restore_main s).loaded_incoming =
      (s.filter (fun p => metaActive p.2)).length -
        (s.filter (fun p => metaActive p.2 && !plugin_loader_resolves p.2)).length ∧
    (restore_main s).skipped_inactive =
      (s.filter (fun p => !metaActive p.2)).length ∧
    (∀ jobs : List JobData, jobs.Perm (load_all_jobs s) →
      (restore_list jobs).loaded_outgoing = (restore_main s).loaded_outgoing ∧
      (restore_list jobs).loaded_incoming = (restore_main s).loaded_incoming ∧
      (restore_list jobs).skipped_inactive = (restore_main s).skipped_inactive) := by
  have hload : load_all_jobs s = s.map Prod.snd := load_all_eq_map_snd s hval hnd
  have hids : (load_all_jobs s).map jobIdOf = s.map Prod.fst := by
    rw [hload, List.map_map]
    exact List.map_congr_left (fun p hp => by
      show jobIdOf p.2 = p.1
      unfold jobIdOf
      rw [hid p hp]
      rfl)
  have hnodup : ((load_all_jobs s).map jobIdOf).Nodup := by
    rw [hids]
    exact hnd
  have htrig0 : ∀ jd ∈ load_all_jobs s,
      resActiveOut jd = true → outTriggerKnown jd = true := by
    rw [hload]
    intro jd hjd
    obtain ⟨p, hp, rfl⟩ := List.mem_map.mp hjd
    exact htrig p hp
  obtain ⟨h1, h2, h3⟩ := restore_fold_spec (load_all_jobs s)
    ⟨[], [], 0, 0, 0⟩ htrig0 hnodup (fun jd _ => by simp)
  have h1' : (List.foldl restore_step ⟨[], [], 0, 0, 0⟩
      (load_all_jobs s)).loaded_outgoing =
      ((load_all_jobs s).filter resActiveOut).length := by
    rw [h1]; simp
  have h2' : (List.foldl restore_step ⟨[], [], 0, 0, 0⟩
      (load_all_jobs s)).loaded_incoming =
      ((load_all_jobs s).filter resActiveInc).length := by
    rw [h2]; simp
  have h3' : (List.foldl restore_step ⟨[], [], 0, 0, 0⟩
      (load_all_jobs s)).skipped_inactive =
      ((load_all_jobs s).filter (fun jd => !metaActive jd)).length := by
    rw [h3]; simp
  have hq : ∀ q : JobData → Bool,
      ((load_all_jobs s).filter q).length = (s.filter (fun p => q p.2)).length := by
    intro q
    rw [hload]
    exact length_filter_map_snd s q
  have hsplit1 := filter_active_split (load_all_jobs s)
  have hsplit2 := filter_res_split (load_all_jobs s)
  have hact_eq := hq (fun jd => metaActive jd)
  have hnres_eq := hq (fun jd => metaActive jd && !plugin_loader_resolves jd)
  have hinact_eq := hq (fun jd => !metaActive jd)
  have hrm : restore_main s =
      List.foldl restore_step ⟨[], [], 0, 0, 0⟩ (load_all_jobs s) := rfl
  refine ⟨?_, ?_, ?_⟩
  · rw [hrm, h1', h2', ← hact_eq, ← hnres_eq]
    omega
  · rw [hrm, h3', ← hinact_eq]
  · intro jobs hperm
    have htrigP : ∀ jd ∈ jobs, resActiveOut jd = true → outTriggerKnown jd = true :=
      fun jd hjd => htrig0 jd (hperm.mem_iff.mp hjd)
    have hnodupP : (jobs.map jobIdOf).Nodup :=
      ((hperm.map jobIdOf).nodup_iff).mpr hnodup
    obtain ⟨p1, p2, p3⟩ := restore_fold_spec jobs ⟨[], [], 0, 0, 0⟩
      htrigP hnodupP (fun jd _ => by simp)
    have p1' : (List.foldl restore_step ⟨[], [], 0, 0, 0⟩ jobs).loaded_outgoing =
        (jobs.filter resActiveOut).length := by
      rw [p1]; simp
    have p2' : (List.foldl restore_step ⟨[], [], 0, 0, 0⟩ jobs).loaded_incoming =
        (jobs.filter resActiveInc).length := by
      rw [p2]; simp
    have p3' : (List.foldl restore_step ⟨[], [], 0, 0, 0⟩ jobs).skipped_inactive =
        (jobs.filter (fun jd => !metaActive jd)).length := by
      rw [p3]; simp
    have e1 := (hperm.filter resActiveOut).length_eq
    have e2 := (hperm.filter resActiveInc).length_eq
    have e3 := (hperm.filter (fun jd => !metaActive jd)).length_eq
    have hrl : restore_list jobs =
        List.foldl restore_step ⟨[], [], 0, 0, 0⟩ jobs := rfl
    refine ⟨?_, ?_, ?_⟩
    · rw [hrl, p1', hrm, h1', e1]
    · rw [hrl, p2', hrm, h2', e2]
    · rw [hrl, p3', hrm, h3', e3]

/-- A record like the plugin-manager handler's but registered under a second
id and disabled. -/
def recSleepy : JobData :=
  create_job_data "Sleepy_handler" "incoming" "plugin_manager"
    "PluginManagerCommand" (.dict [("trigger", "none")]) "Disabled handler"
    false "t0"

/-- A four-record store for the C6 witness: two active resolvable records,
one active unresolvable hybrid, one inactive record. -/
def storeC6w : Store :=
  [("TestPlugin_job", recOutgoing),
   ("PluginManagerCommand_handler", recIncoming),
   ("Reminder_job", recHybrid),
   ("Sleepy_handler", recSleepy)]

/-- Witness for the amended C6: N = 3 active, K = 1 unresolvable (hybrid),
so 2 jobs register and 1 inactive record is skipped. -/
theorem c6_restore_amended_witness :
    (restore_main storeC6w).loaded_outgoing +
        (restore_main storeC6w).loaded_incoming = 2 ∧
    (restore_main storeC6w).skipped_inactive = 1 := by
  have h := c6_restore_amended storeC6w (by decide) (by decide) (by decide)
    (by decide)
  refine ⟨?_, ?_⟩
  · rw [h.1]
    decide
  · rw [h.2.1]
    decide

end TelegramBot
